import Mathlib

/- Verification development for the rover_tele_op teleoperation node
(src/rover_tele_op/tele_op_keyboard.py).

The Python module is shallowly embedded below:
  * floats are modelled as exact rationals (ℚ) in the state machine; all
    float literals of the source (0.35, 1.1, 0.9, plus and minus 1.0, 5.0)
    are exactly representable in ℚ, and every claim except the ten-press
    speed value is insensitive to rounding; for that one value an exact
    model of IEEE binary64 (F64: significand-exponent pairs with
    round-to-nearest-even multiplication) captures the rounding the
    Python floats of the source actually perform;
  * the 7-element Python list of motor offsets is a List ℤ, with the
    in-place increment of an entry modelled by motAdd, which fails
    (IndexError) when the index is out of range, exactly as the Python
    subscript read would;
  * the Python substring membership test, str.index and int() are modelled
    by strSub, strIdx and pyToInt on character lists;
  * the blocking byte stream read by getKey is a finite List Char, the end
    of the list playing the role of end-of-stream: a read of n bytes yields
    min n remaining characters;
  * the keyboard loop of main is loopKeys (one step per consumed key,
    stopping on a raised exception or on the Ctrl-C break), and runMain
    additionally applies the finally block, which zeroes the drive intent.
-/

namespace RoverTeleOp

/-- Constant GRANULARITY = 10 from the source. -/
def GRANULARITY : ℤ := 10

/-- Constant TIMEOUT = 5.0 seconds from the source. -/
def TIMEOUT : ℚ := 5

/-- Prefix test on character lists; the helper used to define the Python
substring membership below. -/
def strPref : List Char → List Char → Bool
  | [], _ => true
  | _ :: _, [] => false
  | a :: as, b :: bs => a == b && strPref as bs

/-- Python substring membership of needle in hay on character lists: true
iff needle occurs contiguously in hay (the empty string is in every
string). -/
def strSub (needle : List Char) : List Char → Bool
  | [] => strPref needle []
  | c :: cs => strPref needle (c :: cs) || strSub needle cs

/-- Python str.index: position of the first occurrence of needle in hay,
none when absent (Python raises ValueError in that case). -/
def strIdx (needle : List Char) : List Char → Option ℕ
  | [] => if strPref needle [] then some 0 else none
  | c :: cs =>
      if strPref needle (c :: cs) then some 0
      else (strIdx needle cs).map (· + 1)

/-- Python int(key) for the strings that can reach the digit branch of the
dispatch (substrings of "12345", hence digit-only): the decimal value, or
none (ValueError) for the empty string. -/
def pyToInt (cs : List Char) : Option ℕ :=
  if cs = [] then none
  else if cs.all (fun c => c.isDigit) then
    some (cs.foldl (fun acc c => 10 * acc + (c.toNat - '0'.toNat)) 0)
  else none

/-- Python key.lower() restricted to ASCII, which covers every character a
dispatch branch compares the lowered key against. -/
def pyLower (s : String) : String := String.mk (s.data.map Char.toLower)

/-- Python key.upper() restricted to ASCII, which covers every character a
dispatch branch compares the uppered key against. -/
def pyUpper (s : String) : String := String.mk (s.data.map Char.toUpper)

/-- Read of n bytes from stdin on the finite stream model: the next
min n remaining characters and the rest of the stream. -/
def pyRead (n : ℕ) (s : List Char) : String × List Char :=
  (String.mk (s.take n), s.drop n)

/-- Function getKey from the source: read one byte; if it is ESC, read two
more bytes and append them; return the resulting key token (the
terminal-mode bookkeeping has no effect on the returned key and is not
modelled). -/
def getKey (stream : List Char) : String × List Char :=
  let r1 := pyRead 1 stream
  if r1.1 = "\x1b" then
    let r2 := pyRead 2 r1.2
    (r1.1 ++ r2.1, r2.2)
  else r1

/-- Mutable state of the Teleop node: speed, motors, x, th and
last_keypress_time, with the field names of the source. -/
structure Teleop where
  speed : ℚ
  motors : List ℤ
  x : ℚ
  th : ℚ
  last_keypress_time : ℚ
deriving Repr, DecidableEq

/-- Constructor of Teleop: speed 0.35, seven zero motors, zero drive
intent; last_keypress_time is the construction time t0. -/
def initTeleop (t0 : ℚ) : Teleop :=
  { speed := 0.35
    motors := List.replicate 7 0
    x := 0
    th := 0
    last_keypress_time := t0 }

/-- Fields of the published Twist message that the source writes (linear.x
and angular.z; all other fields stay at their zero default). -/
structure Twist where
  linear_x : ℚ
  angular_z : ℚ
deriving Repr, DecidableEq

/-- Method timer_callback of Teleop: watchdog check followed by the two
publishes.  Returns the state after the tick, the published Twist, and the
published motor array (the data field of the Int32MultiArray message). -/
def timer_callback (s : Teleop) (current_time : ℚ) : Teleop × Twist × List ℤ :=
  let s1 := if current_time - s.last_keypress_time > TIMEOUT then
      { s with x := 0, th := 0 }
    else s
  (s1, { linear_x := s1.x * s1.speed, angular_z := s1.th * s1.speed }, s1.motors)

/-- Exception classes the key dispatch can raise: ValueError (from int or
str.index) and IndexError (from list subscripts). -/
inductive PyErr
  | valueError
  | indexError
deriving Repr, DecidableEq

/-- In-place increment of entry i of a Python list by d: the entry is read
first, so an out-of-range index raises IndexError (none) before any
write. -/
def motAdd (m : List ℤ) (i : ℕ) (d : ℤ) : Option (List ℤ) :=
  if i < m.length then some (m.set i (m.getD i 0 + d)) else none

/-- Outcome of consuming one key in the loop of main: the state after the
mutations that executed, the exception raised (if any), and whether the
Ctrl-C break fired. -/
structure StepResult where
  st : Teleop
  err : Option PyErr
  brk : Bool
deriving Repr, DecidableEq

/-- One iteration of the key loop of main after getKey returned key at
time t: the assignment of last_keypress_time runs first, then the if/elif
dispatch, in the order of the source.  Mutations that executed before an
exception persist in the returned state. -/
def processKey (s0 : Teleop) (key : String) (t : ℚ) : StepResult :=
  let s := { s0 with last_keypress_time := t }
  if key = "\x1b[A" then ⟨{ s with x := 1, th := 0 }, none, false⟩
  else if key = "\x1b[B" then ⟨{ s with x := -1, th := 0 }, none, false⟩
  else if key = "\x1b[C" then ⟨{ s with th := -1, x := 0 }, none, false⟩
  else if key = "\x1b[D" then ⟨{ s with th := 1, x := 0 }, none, false⟩
  else if pyLower key = "s" then ⟨{ s with x := 0, th := 0 }, none, false⟩
  else if pyLower key = "o" then ⟨{ s with speed := s.speed * 1.1 }, none, false⟩
  else if pyLower key = "p" then ⟨{ s with speed := s.speed * 0.9 }, none, false⟩
  else if strSub key.data "12345".data then
    match pyToInt key.data with
    | none => ⟨s, some .valueError, false⟩
    | some n =>
      match motAdd s.motors (n - 1) GRANULARITY with
      | none => ⟨s, some .indexError, false⟩
      | some m => ⟨{ s with motors := m }, none, false⟩
  else if key = "6" then
    match motAdd s.motors 5 GRANULARITY with
    | none => ⟨s, some .indexError, false⟩
    | some m1 =>
      match motAdd m1 6 GRANULARITY with
      | none => ⟨{ s with motors := m1 }, some .indexError, false⟩
      | some m2 => ⟨{ s with motors := m2 }, none, false⟩
  else if key = "7" then
    match motAdd s.motors 5 GRANULARITY with
    | none => ⟨s, some .indexError, false⟩
    | some m1 =>
      match motAdd m1 6 (-GRANULARITY) with
      | none => ⟨{ s with motors := m1 }, some .indexError, false⟩
      | some m2 => ⟨{ s with motors := m2 }, none, false⟩
  else if strSub (pyUpper key).data "QWERT".data then
    match strIdx (pyUpper key).data "QWERT".data with
    | none => ⟨s, some .valueError, false⟩
    | some idx =>
      match motAdd s.motors idx (-GRANULARITY) with
      | none => ⟨s, some .indexError, false⟩
      | some m => ⟨{ s with motors := m }, none, false⟩
  else if pyUpper key = "Y" then
    match motAdd s.motors 5 (-GRANULARITY) with
    | none => ⟨s, some .indexError, false⟩
    | some m1 =>
      match motAdd m1 6 (-GRANULARITY) with
      | none => ⟨{ s with motors := m1 }, some .indexError, false⟩
      | some m2 => ⟨{ s with motors := m2 }, none, false⟩
  else if pyUpper key = "U" then
    match motAdd s.motors 5 (-GRANULARITY) with
    | none => ⟨s, some .indexError, false⟩
    | some m1 =>
      match motAdd m1 6 GRANULARITY with
      | none => ⟨{ s with motors := m1 }, some .indexError, false⟩
      | some m2 => ⟨{ s with motors := m2 }, none, false⟩
  else if key = "\x03" then ⟨s, none, true⟩
  else ⟨s, none, false⟩

/-- Main keyboard loop, one list entry per consumed (key, time) pair:
stops early when a dispatch raises (the exception propagates to the except
handler) or when Ctrl-C breaks. -/
def loopKeys : Teleop → List (String × ℚ) → Teleop
  | s, [] => s
  | s, (k, t) :: rest =>
    let r := processKey s k t
    if r.err.isSome then r.st
    else if r.brk then r.st
    else loopKeys r.st rest

/-- Key loop of main followed by its finally block, which forces the drive
intent to zero on every exit path (the terminal-mode restore and timer
shutdown have no effect on the node state). -/
def runMain (s : Teleop) (ks : List (String × ℚ)) : Teleop :=
  let s1 := loopKeys s ks
  { s1 with x := 0, th := 0 }

/-- States reachable by the program: the initial node state, closed under
consuming a key, a timer tick, and the shutdown path of main. -/
inductive Reachable : Teleop → Prop
  | init (t0 : ℚ) : Reachable (initTeleop t0)
  | key (s : Teleop) (k : String) (t : ℚ) : Reachable s → Reachable (processKey s k t).st
  | tick (s : Teleop) (now : ℚ) : Reachable s → Reachable (timer_callback s now).1
  | shutdown (s : Teleop) : Reachable s → Reachable { s with x := 0, th := 0 }

/-- Bit length of a natural number, by fuel-bounded structural recursion so
that the kernel can evaluate it.  The helper takes the fuel first; with
fuel f it is exact for every n below 2 to the f. -/
def bitsF : ℕ → ℕ → ℕ
  | 0, _ => 0
  | f + 1, n => if n = 0 then 0 else bitsF f (n / 2) + 1

/-- Bit length of a natural number, exact for every n below 2 to the 512 —
far beyond every value arising in this development. -/
def nbits (n : ℕ) : ℕ := bitsF 512 n

/-- Round-to-nearest with ties to even of the quotient a / b on naturals
(b positive). -/
def rneNat (a b : ℕ) : ℕ :=
  let f := a / b
  let r := a % b
  if 2 * r < b then f
  else if b < 2 * r then f + 1
  else if f % 2 = 0 then f else f + 1

/-- Floor of the base-2 logarithm of the positive rational a / b. -/
def flog2 (a b : ℕ) : ℤ :=
  let m : ℤ := ((nbits a : ℤ) - 1) - ((nbits b : ℤ) - 1)
  if 0 ≤ m then
    (if b * 2 ^ m.toNat ≤ a then m else m - 1)
  else
    (if b ≤ a * 2 ^ (-m).toNat then m else m - 1)

/-- An IEEE binary64 (Python float) value in the normal range, written as
an integer significand times a power of two: the denoted value is
sig times 2 to the ex, with the magnitude of sig in [2^52, 2^53) for
nonzero values.  Exponent overflow and subnormals are not modelled: every
float in the speed computation of the source stays near 1, far inside the
normal range. -/
structure F64 where
  sig : ℤ
  ex : ℤ
deriving Repr, DecidableEq

/-- Correctly rounded (nearest, ties to even) binary64 value of the
rational a / b: the double denoted by a Python float literal such as 0.35
or 1.1. -/
def ratToF64 (a b : ℕ) : F64 :=
  if a = 0 then ⟨0, 0⟩
  else
    let k : ℤ := 52 - flog2 a b
    let m : ℕ := if 0 ≤ k then rneNat (a * 2 ^ k.toNat) b else rneNat a (b * 2 ^ (-k).toNat)
    if m = 2 ^ 53 then ⟨2 ^ 52, -k + 1⟩ else ⟨(m : ℤ), -k⟩

/-- Renormalization of an exact value p times 2 to the e into binary64:
the significand is rounded to 53 bits (nearest, ties to even), widening
the exponent when rounding carries into a 54th bit. -/
def normF64 (p : ℤ) (e : ℤ) : F64 :=
  if p = 0 then ⟨0, 0⟩
  else
    let ap := p.natAbs
    let b := nbits ap
    if b ≤ 53 then ⟨p * 2 ^ (53 - b), e - ((53 - b : ℕ) : ℤ)⟩
    else
      let s := b - 53
      let m := rneNat ap (2 ^ s)
      let sig : ℤ := if p < 0 then -(m : ℤ) else (m : ℤ)
      if m = 2 ^ 53 then ⟨sig / 2, e + s + 1⟩ else ⟨sig, e + s⟩

/-- IEEE binary64 multiplication: the exact product of the two operands,
rounded back to a 53-bit significand.  This is the semantics of the Python
float multiplication in the speed branches of the dispatch. -/
def fmul (x y : F64) : F64 := normF64 (x.sig * y.sig) (x.ex + y.ex)

/-- Exact rational value denoted by a binary64 number. -/
def F64.toRat (x : F64) : ℚ := (x.sig : ℚ) * (2 : ℚ) ^ x.ex

/-- Double denoted by the float literal 0.35 of the source (the initial
speed). -/
def lit35 : F64 := ratToF64 7 20

/-- Double denoted by the float literal 1.1 of the source (the speed-up
factor). -/
def lit11 : F64 := ratToF64 11 10

/-- Speed update performed by the o branch under the IEEE binary64
semantics of the source: the current speed times the double 1.1, with the
product rounded. -/
def speedTimes11 (d : F64) : F64 := fmul d lit11

/-- Abbreviation for the effect the coupled arm keys are specified to have:
exactly the motor entries at indices 5 and 6 change, by d5 and d6, and the
drive intent and speed are untouched. -/
def coupledOk (s : Teleop) (t : ℚ) (key : String) (d5 d6 : ℤ) : Prop :=
  (processKey s key t).st.motors.getD 5 0 = s.motors.getD 5 0 + d5 ∧
  (processKey s key t).st.motors.getD 6 0 = s.motors.getD 6 0 + d6 ∧
  (∀ i : ℕ, i ≠ 5 → i ≠ 6 → (processKey s key t).st.motors.getD i 0 = s.motors.getD i 0) ∧
  (processKey s key t).st.x = s.x ∧ (processKey s key t).st.th = s.th ∧
  (processKey s key t).st.speed = s.speed

/-- Reading an entry just written by List.set. -/
lemma getD_set_self {m : List ℤ} {i : ℕ} {v : ℤ} (h : i < m.length) :
    (m.set i v).getD i 0 = v := by
  rw [List.getD_eq_getElem?_getD, List.getElem?_set_eq_of_lt _ h]
  rfl

/-- Reading an entry other than the one written by List.set. -/
lemma getD_set_ne {m : List ℤ} {i j : ℕ} {v : ℤ} (h : i ≠ j) :
    (m.set i v).getD j 0 = m.getD j 0 := by
  rw [List.getD_eq_getElem?_getD, List.getElem?_set_ne h, ← List.getD_eq_getElem?_getD]

/-- Case analysis of the dispatch: whatever the key, the resulting x and th
are either unchanged or one of the assigned constants 0, 1, -1, and the
resulting last_keypress_time is the read time. -/
lemma processKey_drive_shape (s : Teleop) (k : String) (t : ℚ) :
    ((processKey s k t).st.x = s.x ∨ (processKey s k t).st.x = 0 ∨
      (processKey s k t).st.x = 1 ∨ (processKey s k t).st.x = -1) ∧
    ((processKey s k t).st.th = s.th ∨ (processKey s k t).st.th = 0 ∨
      (processKey s k t).st.th = 1 ∨ (processKey s k t).st.th = -1) ∧
    (processKey s k t).st.last_keypress_time = t := by
  unfold processKey
  dsimp only
  by_cases h1 : k = "\x1b[A"
  · rw [if_pos h1]; refine ⟨?_, ?_, rfl⟩ <;> simp
  rw [if_neg h1]
  by_cases h2 : k = "\x1b[B"
  · rw [if_pos h2]; refine ⟨?_, ?_, rfl⟩ <;> simp
  rw [if_neg h2]
  by_cases h3 : k = "\x1b[C"
  · rw [if_pos h3]; refine ⟨?_, ?_, rfl⟩ <;> simp
  rw [if_neg h3]
  by_cases h4 : k = "\x1b[D"
  · rw [if_pos h4]; refine ⟨?_, ?_, rfl⟩ <;> simp
  rw [if_neg h4]
  by_cases h5 : pyLower k = "s"
  · rw [if_pos h5]; refine ⟨?_, ?_, rfl⟩ <;> simp
  rw [if_neg h5]
  by_cases h6 : pyLower k = "o"
  · rw [if_pos h6]; refine ⟨?_, ?_, rfl⟩ <;> simp
  rw [if_neg h6]
  by_cases h7 : pyLower k = "p"
  · rw [if_pos h7]; refine ⟨?_, ?_, rfl⟩ <;> simp
  rw [if_neg h7]
  by_cases h8 : strSub k.data "12345".data = true
  · rw [if_pos h8]
    rcases hp : pyToInt k.data with _ | n
    · refine ⟨?_, ?_, rfl⟩ <;> simp
    · dsimp only
      rcases hm : motAdd s.motors (n - 1) GRANULARITY with _ | m
      · refine ⟨?_, ?_, rfl⟩ <;> simp
      · refine ⟨?_, ?_, rfl⟩ <;> simp
  rw [if_neg h8]
  by_cases h9 : k = "6"
  · rw [if_pos h9]
    rcases hm : motAdd s.motors 5 GRANULARITY with _ | m1
    · refine ⟨?_, ?_, rfl⟩ <;> simp
    · dsimp only
      rcases hm2 : motAdd m1 6 GRANULARITY with _ | m2
      · refine ⟨?_, ?_, rfl⟩ <;> simp
      · refine ⟨?_, ?_, rfl⟩ <;> simp
  rw [if_neg h9]
  by_cases h10 : k = "7"
  · rw [if_pos h10]
    rcases hm : motAdd s.motors 5 GRANULARITY with _ | m1
    · refine ⟨?_, ?_, rfl⟩ <;> simp
    · dsimp only
      rcases hm2 : motAdd m1 6 (-GRANULARITY) with _ | m2
      · refine ⟨?_, ?_, rfl⟩ <;> simp
      · refine ⟨?_, ?_, rfl⟩ <;> simp
  rw [if_neg h10]
  by_cases h11 : strSub (pyUpper k).data "QWERT".data = true
  · rw [if_pos h11]
    rcases hi : strIdx (pyUpper k).data "QWERT".data with _ | idx
    · refine ⟨?_, ?_, rfl⟩ <;> simp
    · dsimp only
      rcases hm : motAdd s.motors idx (-GRANULARITY) with _ | m
      · refine ⟨?_, ?_, rfl⟩ <;> simp
      · refine ⟨?_, ?_, rfl⟩ <;> simp
  rw [if_neg h11]
  by_cases h12 : pyUpper k = "Y"
  · rw [if_pos h12]
    rcases hm : motAdd s.motors 5 (-GRANULARITY) with _ | m1
    · refine ⟨?_, ?_, rfl⟩ <;> simp
    · dsimp only
      rcases hm2 : motAdd m1 6 (-GRANULARITY) with _ | m2
      · refine ⟨?_, ?_, rfl⟩ <;> simp
      · refine ⟨?_, ?_, rfl⟩ <;> simp
  rw [if_neg h12]
  by_cases h13 : pyUpper k = "U"
  · rw [if_pos h13]
    rcases hm : motAdd s.motors 5 (-GRANULARITY) with _ | m1
    · refine ⟨?_, ?_, rfl⟩ <;> simp
    · dsimp only
      rcases hm2 : motAdd m1 6 GRANULARITY with _ | m2
      · refine ⟨?_, ?_, rfl⟩ <;> simp
      · refine ⟨?_, ?_, rfl⟩ <;> simp
  rw [if_neg h13]
  by_cases h14 : k = "\x03"
  · rw [if_pos h14]; refine ⟨?_, ?_, rfl⟩ <;> simp
  rw [if_neg h14]
  refine ⟨?_, ?_, rfl⟩ <;> simp

/-- Effect of a branch that increments motor 5 by d5 and then motor 6 by
d6, on a 7-entry motor list: exactly entries 5 and 6 change, by d5 and d6,
and the drive intent and speed are untouched.  The hypothesis hk is closed
by rfl at each of the coupled keys. -/
lemma coupledStep (s : Teleop) (t : ℚ) (d5 d6 : ℤ) (r : StepResult)
    (h : s.motors.length = 7)
    (hk : r = match motAdd s.motors 5 d5 with
      | none => ⟨{ s with last_keypress_time := t }, some .indexError, false⟩
      | some m1 =>
        match motAdd m1 6 d6 with
        | none => ⟨{ s with motors := m1, last_keypress_time := t }, some .indexError, false⟩
        | some m2 => ⟨{ s with motors := m2, last_keypress_time := t }, none, false⟩) :
    r.st.motors.getD 5 0 = s.motors.getD 5 0 + d5 ∧
    r.st.motors.getD 6 0 = s.motors.getD 6 0 + d6 ∧
    (∀ i : ℕ, i ≠ 5 → i ≠ 6 → r.st.motors.getD i 0 = s.motors.getD i 0) ∧
    r.st.x = s.x ∧ r.st.th = s.th ∧ r.st.speed = s.speed := by
  subst hk
  have h5 : motAdd s.motors 5 d5 = some (s.motors.set 5 (s.motors.getD 5 0 + d5)) := by
    simp [motAdd, h]
  rw [h5]
  dsimp only
  have hlen : (s.motors.set 5 (s.motors.getD 5 0 + d5)).length = 7 := by simp [h]
  have h6 : motAdd (s.motors.set 5 (s.motors.getD 5 0 + d5)) 6 d6 =
      some ((s.motors.set 5 (s.motors.getD 5 0 + d5)).set 6
        ((s.motors.set 5 (s.motors.getD 5 0 + d5)).getD 6 0 + d6)) := by
    simp [motAdd, h, hlen]
  rw [h6]
  dsimp only
  refine ⟨?_, ?_, ?_, rfl, rfl, rfl⟩
  · rw [getD_set_ne (show (6 : ℕ) ≠ 5 by norm_num),
      getD_set_self (show (5 : ℕ) < s.motors.length by omega)]
  · rw [getD_set_self (show (6 : ℕ) < (s.motors.set 5 (s.motors.getD 5 0 + d5)).length by omega),
      getD_set_ne (show (5 : ℕ) ≠ 6 by norm_num)]
  · intro i h5i h6i
    rw [getD_set_ne (Ne.symm h6i), getD_set_ne (Ne.symm h5i)]

/-- Drive intent of every reachable state is one of the three assigned
constants, in each component. -/
lemma reachable_drive_vals (s : Teleop) (h : Reachable s) :
    (s.x = -1 ∨ s.x = 0 ∨ s.x = 1) ∧ (s.th = -1 ∨ s.th = 0 ∨ s.th = 1) := by
  induction h with
  | init t0 => exact ⟨Or.inr (Or.inl rfl), Or.inr (Or.inl rfl)⟩
  | key s k t _ ih =>
    obtain ⟨hx, hth, -⟩ := processKey_drive_shape s k t
    constructor
    · rcases hx with h' | h' | h' | h'
      · rw [h']; exact ih.1
      · rw [h']; exact Or.inr (Or.inl rfl)
      · rw [h']; exact Or.inr (Or.inr rfl)
      · rw [h']; exact Or.inl rfl
    · rcases hth with h' | h' | h' | h'
      · rw [h']; exact ih.2
      · rw [h']; exact Or.inr (Or.inl rfl)
      · rw [h']; exact Or.inr (Or.inr rfl)
      · rw [h']; exact Or.inl rfl
  | tick s now _ ih =>
    unfold timer_callback
    dsimp only
    split
    · exact ⟨Or.inr (Or.inl rfl), Or.inr (Or.inl rfl)⟩
    · exact ih
  | shutdown s _ ih => exact ⟨Or.inr (Or.inl rfl), Or.inr (Or.inl rfl)⟩

/-- Claim C1: on any timer tick whose elapsed time since the last recorded
keypress exceeds 5.0 seconds, the published velocity message has
linear.x = 0 and angular.z = 0, whatever drive intent (x, th) the state
held before the tick. -/
theorem watchdog_zeroes_velocity (s : Teleop) (now : ℚ)
    (h : now - s.last_keypress_time > 5) :
    (timer_callback s now).2.1.linear_x = 0 ∧
    (timer_callback s now).2.1.angular_z = 0 := by
  simp only [timer_callback, TIMEOUT, if_pos h]
  constructor <;> ring

/-- Witness for C1 at a concrete stale state with nonzero drive intent. -/
theorem watchdog_zeroes_velocity_witness :
    (6 : ℚ) - (Teleop.mk 0.35 (List.replicate 7 0) 1 (-1) 0).last_keypress_time > 5 ∧
    ((timer_callback (Teleop.mk 0.35 (List.replicate 7 0) 1 (-1) 0) 6).2.1.linear_x = 0 ∧
      (timer_callback (Teleop.mk 0.35 (List.replicate 7 0) 1 (-1) 0) 6).2.1.angular_z = 0) :=
  ⟨by norm_num, watchdog_zeroes_velocity (Teleop.mk 0.35 (List.replicate 7 0) 1 (-1) 0) 6
    (by norm_num)⟩

/-- Claim C2: every timer tick publishes the velocity message built from
the post-watchdog state (linear.x = x * speed, angular.z = th * speed,
where x and th are the pre-tick values unless the watchdog fired) and the
motor message carrying exactly the current motor offset array. -/
theorem tick_publishes_state (s : Teleop) (now : ℚ) :
    (timer_callback s now).2.1.linear_x =
      (timer_callback s now).1.x * (timer_callback s now).1.speed ∧
    (timer_callback s now).2.1.angular_z =
      (timer_callback s now).1.th * (timer_callback s now).1.speed ∧
    (timer_callback s now).2.1.linear_x =
      (if now - s.last_keypress_time > TIMEOUT then 0 else s.x) * s.speed ∧
    (timer_callback s now).2.1.angular_z =
      (if now - s.last_keypress_time > TIMEOUT then 0 else s.th) * s.speed ∧
    (timer_callback s now).2.2 = s.motors := by
  simp only [timer_callback]
  split <;> simp

/-- Claim C3: a timer tick never changes the motor array, the speed scalar
or the recorded keypress time; it rewrites x and th to zero exactly when
the watchdog fires (elapsed over 5.0 s) and leaves them untouched
otherwise. -/
theorem tick_frame (s : Teleop) (now : ℚ) :
    (timer_callback s now).1.motors = s.motors ∧
    (timer_callback s now).1.speed = s.speed ∧
    (timer_callback s now).1.last_keypress_time = s.last_keypress_time ∧
    (timer_callback s now).1.x =
      (if now - s.last_keypress_time > TIMEOUT then 0 else s.x) ∧
    (timer_callback s now).1.th =
      (if now - s.last_keypress_time > TIMEOUT then 0 else s.th) := by
  simp only [timer_callback]
  split <;> simp

/-- Counterexample to claim C4: the key z matches no entry of the dispatch
table — it mutates nothing, raises nothing and does not break — yet
consuming it still updates last_keypress_time (here from 0 to 42), because
the loop records the time before the dispatch for every key. -/
theorem noop_key_updates_timestamp :
    (processKey (initTeleop 0) "z" 42).st.x = (initTeleop 0).x ∧
    (processKey (initTeleop 0) "z" 42).st.th = (initTeleop 0).th ∧
    (processKey (initTeleop 0) "z" 42).st.speed = (initTeleop 0).speed ∧
    (processKey (initTeleop 0) "z" 42).st.motors = (initTeleop 0).motors ∧
    (processKey (initTeleop 0) "z" 42).err = none ∧
    (processKey (initTeleop 0) "z" 42).brk = false ∧
    (processKey (initTeleop 0) "z" 42).st.last_keypress_time = 42 ∧
    (initTeleop 0).last_keypress_time ≠ 42 :=
  ⟨rfl, rfl, rfl, rfl, rfl, rfl, rfl, by norm_num [initTeleop]⟩

/-- Claim C4 as amended: every key consumed by the input loop — matched or
not — has last_keypress_time set to the read time before its action is
dispatched; in particular the resulting state always records that time,
even when the dispatch is a no-op or raises. -/
theorem every_key_updates_timestamp (s : Teleop) (k : String) (t : ℚ) :
    (processKey s k t).st.last_keypress_time = t :=
  (processKey_drive_shape s k t).2.2

/-- Claim C5: each of the keys 6, 7, y, u (the letters in either case)
changes exactly the two motor entries at indices 5 and 6, by plus or minus
10 with the documented sign pattern, and leaves every other motor entry,
the drive intent and the speed unchanged. -/
theorem coupled_motor_keys (s : Teleop) (t : ℚ) (h : s.motors.length = 7) :
    coupledOk s t "6" 10 10 ∧ coupledOk s t "7" 10 (-10) ∧
    coupledOk s t "y" (-10) (-10) ∧ coupledOk s t "Y" (-10) (-10) ∧
    coupledOk s t "u" (-10) 10 ∧ coupledOk s t "U" (-10) 10 :=
  ⟨coupledStep s t 10 10 _ h rfl, coupledStep s t 10 (-10) _ h rfl,
    coupledStep s t (-10) (-10) _ h rfl, coupledStep s t (-10) (-10) _ h rfl,
    coupledStep s t (-10) 10 _ h rfl, coupledStep s t (-10) 10 _ h rfl⟩

/-- Witness for C5 at the initial state, whose motor list has length 7. -/
theorem coupled_motor_keys_witness :
    (initTeleop 0).motors.length = 7 ∧
    (coupledOk (initTeleop 0) 0 "6" 10 10 ∧ coupledOk (initTeleop 0) 0 "7" 10 (-10) ∧
      coupledOk (initTeleop 0) 0 "y" (-10) (-10) ∧ coupledOk (initTeleop 0) 0 "Y" (-10) (-10) ∧
      coupledOk (initTeleop 0) 0 "u" (-10) 10 ∧ coupledOk (initTeleop 0) 0 "U" (-10) 10) :=
  ⟨rfl, coupled_motor_keys (initTeleop 0) 0 rfl⟩

/-- Claim C6: the arrow keys assign both drive intent fields (Up x=1 th=0,
Down x=-1 th=0, Right th=-1 x=0, Left th=1 x=0), and from any starting
state the key sequence Left then Right ends with th=-1 and x=0: the later
key overwrites the earlier one. -/
theorem arrow_keys_assign (s : Teleop) (t t' : ℚ) :
    (processKey s "\x1b[A" t).st.x = 1 ∧ (processKey s "\x1b[A" t).st.th = 0 ∧
    (processKey s "\x1b[B" t).st.x = -1 ∧ (processKey s "\x1b[B" t).st.th = 0 ∧
    (processKey s "\x1b[C" t).st.th = -1 ∧ (processKey s "\x1b[C" t).st.x = 0 ∧
    (processKey s "\x1b[D" t).st.th = 1 ∧ (processKey s "\x1b[D" t).st.x = 0 ∧
    (loopKeys s [("\x1b[D", t), ("\x1b[C", t')]).th = -1 ∧
    (loopKeys s [("\x1b[D", t), ("\x1b[C", t')]).x = 0 :=
  ⟨rfl, rfl, rfl, rfl, rfl, rfl, rfl, rfl, rfl, rfl⟩

/-- Claim C7: in every reachable state the drive intent fields x and th lie
in the interval [-1, 1]: they start at 0 and every write assigns only the
values -1, 0 or 1. -/
theorem drive_intent_bounded (s : Teleop) (h : Reachable s) :
    -1 ≤ s.x ∧ s.x ≤ 1 ∧ -1 ≤ s.th ∧ s.th ≤ 1 := by
  obtain ⟨hx, hth⟩ := reachable_drive_vals s h
  refine ⟨?_, ?_, ?_, ?_⟩
  · rcases hx with h' | h' | h' <;> rw [h'] <;> norm_num
  · rcases hx with h' | h' | h' <;> rw [h'] <;> norm_num
  · rcases hth with h' | h' | h' <;> rw [h'] <;> norm_num
  · rcases hth with h' | h' | h' <;> rw [h'] <;> norm_num

/-- Witness for C7 at the initial state, which is reachable. -/
theorem drive_intent_bounded_witness :
    Reachable (initTeleop 0) ∧
    (-1 ≤ (initTeleop 0).x ∧ (initTeleop 0).x ≤ 1 ∧
      -1 ≤ (initTeleop 0).th ∧ (initTeleop 0).th ≤ 1) :=
  ⟨Reachable.init 0, drive_intent_bounded (initTeleop 0) (Reachable.init 0)⟩

set_option maxRecDepth 8000 in
/-- Counterexample to claim C8: under the IEEE binary64 semantics of the
floats of the source, ten sequential rounded multiplications by the double
1.1, starting from the double 0.35, yield the double
8176824303760984 times 2 to the -53, which is not equal to
0.35 times the tenth power of 1.1 — and not even to the double nearest to
that value (8176824303760976 times 2 to the -53).  The stated ten-press
equality therefore fails in the program; it holds only in exact
arithmetic.  Already the double literal 0.35 denotes a value different
from the rational 0.35. -/
theorem speed_ten_presses_float_differs :
    lit35 = ⟨6305039478318694, -54⟩ ∧
    lit35.toRat ≠ 0.35 ∧
    lit11 = ⟨4953959590107546, -52⟩ ∧
    lit11.toRat = 2476979795053773 / 2 ^ 51 ∧
    speedTimes11^[10] lit35 = ⟨8176824303760984, -53⟩ ∧
    (speedTimes11^[10] lit35).toRat = 8176824303760984 / 2 ^ 53 ∧
    (0.35 : ℚ) * 1.1 ^ 10 = 181561972207 / 200000000000 ∧
    ratToF64 181561972207 200000000000 = ⟨8176824303760976, -53⟩ ∧
    speedTimes11^[10] lit35 ≠ ratToF64 181561972207 200000000000 ∧
    (speedTimes11^[10] lit35).toRat ≠ (0.35 : ℚ) * 1.1 ^ 10 := by
  have h35 : lit35 = ⟨6305039478318694, -54⟩ := by decide
  have h11 : lit11 = ⟨4953959590107546, -52⟩ := by decide
  have hseq : speedTimes11^[10] lit35 = ⟨8176824303760984, -53⟩ := by decide
  have hnear : ratToF64 181561972207 200000000000 = ⟨8176824303760976, -53⟩ := by decide
  refine ⟨h35, ?_, h11, ?_, hseq, ?_, by norm_num, hnear, ?_, ?_⟩
  · rw [h35]; norm_num [F64.toRat]
  · rw [h11]; norm_num [F64.toRat]
  · rw [hseq]; norm_num [F64.toRat]
  · rw [hseq, hnear]; decide
  · rw [hseq]; norm_num [F64.toRat]

set_option maxRecDepth 8000 in
/-- Claim C8 as amended: the speed scalar starts at 0.35, is multiplied by
1.1 on the o key and by 0.9 on the p key (either case), with no clamping;
pressing o ten times from the initial state yields exactly 0.35 times the
tenth power of 1.1 in exact arithmetic, but under the IEEE binary64
semantics of the floats of the source it yields the double
8176824303760984 times 2 to the -53, which is not equal to
0.35 times the tenth power of 1.1. -/
theorem speed_scaling (s : Teleop)
    (t0 t t1 t2 t3 t4 t5 t6 t7 t8 t9 t10 : ℚ) :
    (initTeleop t0).speed = 0.35 ∧
    (processKey s "o" t).st.speed = s.speed * 1.1 ∧
    (processKey s "O" t).st.speed = s.speed * 1.1 ∧
    (processKey s "p" t).st.speed = s.speed * 0.9 ∧
    (processKey s "P" t).st.speed = s.speed * 0.9 ∧
    (loopKeys (initTeleop t0)
      [("o", t1), ("o", t2), ("o", t3), ("o", t4), ("o", t5),
       ("o", t6), ("o", t7), ("o", t8), ("o", t9), ("o", t10)]).speed = 0.35 * 1.1 ^ 10 ∧
    (speedTimes11^[10] lit35).toRat = 8176824303760984 / 2 ^ 53 ∧
    (speedTimes11^[10] lit35).toRat ≠ (0.35 : ℚ) * 1.1 ^ 10 := by
  have hseq : speedTimes11^[10] lit35 = ⟨8176824303760984, -53⟩ := by decide
  refine ⟨rfl, rfl, rfl, rfl, rfl, ?_, ?_, ?_⟩
  · show (0.35 * 1.1 * 1.1 * 1.1 * 1.1 * 1.1 * 1.1 * 1.1 * 1.1 * 1.1 * 1.1 : ℚ) = 0.35 * 1.1 ^ 10
    norm_num
  · rw [hseq]; norm_num [F64.toRat]
  · rw [hseq]; norm_num [F64.toRat]

/-- Counterexample to claim C9: on the stream ESC followed by one byte x,
the first byte read is ESC but two more bytes are not available; the claim
then asks for the single byte ESC, yet getKey returns the two-character
token of ESC followed by x. -/
theorem getKey_single_byte_claim_fails :
    (['\x1b', 'x'] : List Char).head? = some '\x1b' ∧
    ¬ (3 ≤ (['\x1b', 'x'] : List Char).length) ∧
    (getKey ['\x1b', 'x']).1 ≠ "\x1b" ∧
    (getKey ['\x1b', 'x']).1 = "\x1bx" := by
  refine ⟨rfl, by norm_num, by decide, rfl⟩

/-- Claim C9 as amended: getKey returns a 3-character token starting with
ESC exactly when the first byte read is ESC and at least two more bytes
are available; when the first byte is ESC it returns ESC followed by up to
two remaining bytes (ESC alone when none remain), and otherwise it returns
just the first byte (the empty string on an empty stream), consuming
exactly the returned bytes. -/
theorem getKey_stream_characterization (stream : List Char) :
    ((getKey stream).1.data.length = 3 ∧ (getKey stream).1.data.head? = some '\x1b' ↔
      stream.head? = some '\x1b' ∧ 3 ≤ stream.length) ∧
    (getKey stream).1.data =
      (if stream.head? = some '\x1b' then '\x1b' :: stream.tail.take 2 else stream.take 1) ∧
    (getKey stream).2 =
      (if stream.head? = some '\x1b' then stream.tail.drop 2 else stream.tail) := by
  cases stream with
  | nil => simp [getKey, pyRead]
  | cons c cs =>
    unfold getKey pyRead
    dsimp only
    by_cases hc : c = '\x1b'
    · subst hc
      have hcond : ({ data := List.take 1 ('\x1b' :: cs) } : String) = "\x1b" := rfl
      rw [if_pos hcond]
      refine ⟨?_, ?_, ?_⟩
      · simp only [String.data_append, List.take_succ_cons, List.take_zero,
          List.drop_succ_cons, List.drop_zero, List.length_cons, List.length_append,
          List.length_take, List.head?_cons, List.singleton_append]
        constructor
        · rintro ⟨h3, -⟩
          exact ⟨trivial, by omega⟩
        · rintro ⟨-, h3⟩
          exact ⟨by omega, trivial⟩
      · simp
      · simp
    · have hne : ¬ (({ data := List.take 1 (c :: cs) } : String) = "\x1b") := by
        intro hh
        exact hc (by simpa using congrArg String.data hh)
      rw [if_neg hne]
      refine ⟨?_, ?_, ?_⟩
      · simp [hc]
      · simp [hc]
      · simp [hc]

/-- Claim C10: the empty key returned by a raw read at end-of-stream is in
the Python sense a substring of the digit table, so the dispatch takes the
digit branch, int of the empty string raises ValueError, the state keeps
only the timestamp update, and the loop stops and runs the shutdown path
(drive intent zeroed) instead of continuing with later keys. -/
theorem empty_key_dispatch (s : Teleop) (t : ℚ) (rest : List (String × ℚ)) :
    strSub "".data "12345".data = true ∧
    pyToInt "".data = none ∧
    processKey s "" t = ⟨{ s with last_keypress_time := t }, some PyErr.valueError, false⟩ ∧
    runMain s (("", t) :: rest) = { s with x := 0, th := 0, last_keypress_time := t } :=
  ⟨rfl, rfl, rfl, rfl⟩

end RoverTeleOp
